import Mathlib

/-!
Verification of the flowing-layout / paginated-table engine of the REPORTS
repository.  The JavaScript layout routines are shallowly embedded: layout
coordinates (JS numbers) become rationals, the drawing side effects of each
routine become an explicit list of drawing operations tagged with a physical
page index, and the text-measurement capability of the rendering surface
(pdfkit's heightOfString) is an explicit function parameter.
-/

namespace Reports

/-! ### constants.js -/

/-- Layout constant from constants.js. -/
def leftMargin : ℚ := 20

/-- Layout constant from constants.js. -/
def rightMargin : ℚ := 20

/-! ### Page geometry and drawing operations -/

/-- Geometry of one document: page size and top and bottom margins, as read
from the pdfkit document object. -/
structure PageGeom where
  width : ℚ
  height : ℚ
  marginTop : ℚ
  marginBottom : ℚ
deriving DecidableEq, Repr

/-- Bottom boundary of the usable area: doc.page.height minus the bottom
margin, as computed in drawWideLeftTable and ensureSpace. -/
def pageBottom (g : PageGeom) : ℚ := g.height - g.marginBottom

/-- One primitive drawing operation of the rendering surface: a stroked
rectangle, a piece of text with a wrap width and alignment, or a stroked
line segment. -/
inductive DrawOp where
  | rect (x y w h : ℚ)
  | text (s : String) (x y w : ℚ) (align : String)
  | line (x1 y1 x2 y2 : ℚ)
deriving DecidableEq, Repr

/-- A drawing operation tagged with the physical page it lands on. -/
abbrev POp := ℕ × DrawOp

/-! ### drawWideLeftTable (summary-report/src/utils/pdfLayoutUtils.js) -/

/-- Usable table width: doc.page.width - leftMargin - rightMargin. -/
def tableWidth (g : PageGeom) : ℚ := g.width - leftMargin - rightMargin

/-- Left (label) column width: Math.floor(tableWidth * 0.75). -/
def col1Width (g : PageGeom) : ℚ := ⌊tableWidth g * 0.75⌋

/-- Right (value) column width: tableWidth - col1Width. -/
def col2Width (g : PageGeom) : ℚ := tableWidth g - col1Width g

/-- Fixed data-row height of drawWideLeftTable. -/
def wltRowHeight : ℚ := 18

/-- Header-row height of drawWideLeftTable. -/
def wltHeaderHeight : ℚ := 20

/-- The drawHeader helper inside drawWideLeftTable: two bordered header
cells and the two header texts, at vertical position yPos. -/
def drawHeader (g : PageGeom) (leftHeader rightHeader : String) (page : ℕ)
    (yPos : ℚ) : List POp :=
  [ (page, DrawOp.rect leftMargin yPos (col1Width g) wltHeaderHeight),
    (page, DrawOp.rect (leftMargin + col1Width g) yPos (col2Width g) wltHeaderHeight),
    (page, DrawOp.text leftHeader (leftMargin + 8) (yPos + 5) (col1Width g - 16) "left"),
    (page, DrawOp.text rightHeader (leftMargin + col1Width g + 8) (yPos + 5) (col2Width g - 16) "right") ]

/-- The body of one data-row iteration of drawWideLeftTable: two bordered
cells and the label and value texts at vertical position y. -/
def wltRowOps (g : PageGeom) (label value : String) (page : ℕ) (y : ℚ) :
    List POp :=
  [ (page, DrawOp.rect leftMargin y (col1Width g) wltRowHeight),
    (page, DrawOp.rect (leftMargin + col1Width g) y (col2Width g) wltRowHeight),
    (page, DrawOp.text label (leftMargin + 8) (y + 4) (col1Width g - 16) "left"),
    (page, DrawOp.text value (leftMargin + col1Width g + 8) (y + 4) (col2Width g - 16) "right") ]

/-- Output of the data-row loop of drawWideLeftTable: the emitted drawing
operations, the (page, top) placement of each data row in render order,
and the final page index and cursor position. -/
structure WltOut where
  ops : List POp
  rowPos : List (ℕ × ℚ)
  page : ℕ
  y : ℚ
deriving DecidableEq, Repr

/-- The data-row loop of drawWideLeftTable.  Before each row it checks
currentY + rowHeight + 10 > bottom; on a break it adds a page, resets
currentY to the top margin, redraws the header and advances past it,
then draws the row and advances by the fixed row height. -/
def wltLoop (g : PageGeom) (leftHeader rightHeader : String) :
    List (String × String) → ℕ → ℚ → WltOut
  | [], page, y => ⟨[], [], page, y⟩
  | (label, value) :: rest, page, y =>
    if y + wltRowHeight + 10 > pageBottom g then
      let page2 := page + 1
      let yTop := g.marginTop
      let y2 := yTop + wltHeaderHeight
      let out := wltLoop g leftHeader rightHeader rest page2 (y2 + wltRowHeight)
      ⟨drawHeader g leftHeader rightHeader page2 yTop
         ++ wltRowOps g label value page2 y2 ++ out.ops,
       (page2, y2) :: out.rowPos, out.page, out.y⟩
    else
      let out := wltLoop g leftHeader rightHeader rest page (y + wltRowHeight)
      ⟨wltRowOps g label value page y ++ out.ops,
       (page, y) :: out.rowPos, out.page, out.y⟩

/-- Result of drawWideLeftTable: the emitted operations, the data-row
placements, and the returned Y position. -/
structure WltResult where
  ops : List POp
  rowPos : List (ℕ × ℚ)
  retY : ℚ
deriving DecidableEq, Repr

/-- drawWideLeftTable: draws the header at startY, runs the data-row loop
from startY + headerHeight on page 0, draws the bottom border rule at the
final cursor position, and returns that position + 4. -/
def drawWideLeftTable (g : PageGeom) (rows : List (String × String))
    (leftHeader rightHeader : String) (startY : ℚ) : WltResult :=
  let out := wltLoop g leftHeader rightHeader rows 0 (startY + wltHeaderHeight)
  ⟨drawHeader g leftHeader rightHeader 0 startY ++ out.ops
     ++ [(out.page, DrawOp.line leftMargin out.y (leftMargin + tableWidth g) out.y)],
   out.rowPos, out.y + 4⟩

/-- The per-row page-break step of drawWideLeftTable's loop, extracted:
given the page and cursor before a row, where that row is placed.  This is
exactly the branch taken by wltLoop for the row at the head of its list. -/
def wltEntry (g : PageGeom) (page : ℕ) (y : ℚ) : ℕ × ℚ :=
  if y + wltRowHeight + 10 > pageBottom g then (page + 1, g.marginTop + wltHeaderHeight)
  else (page, y)

/-! ### Receipt/invoice row primitives (unnamed/part_000, part_002) -/

/-- Inside width of the document: doc.page.width - (leftMargin + rightMargin + 10). -/
def insideWidth (g : PageGeom) : ℚ := g.width - (leftMargin + rightMargin + 10)

/-- Minimum height to ensure consistent cells. -/
def minCellHeight : ℚ := 14

/-- The reduce in generateInformationLine: the maximum over the cell texts
of the measured wrapped height, starting from 0, where m is the rendering
surface's heightOfString at the active font, size and wrap width. -/
def maxTextHeight (m : String → ℚ) (text : List String) : ℚ :=
  text.foldl (fun mx s => if m s > mx then m s else mx) 0

/-- The computed uniform row height of generateInformationLine:
Math.max(maxHeight, minCellHeight) applied after the reduce. -/
def computedRowHeight (m : String → ℚ) (text : List String) : ℚ :=
  max (maxTextHeight m text) minCellHeight

/-- One iteration of the cell-drawing loop shared by generateInformationLine
and generateInformationLineWithFixedHeight: cell i is drawn at
x = leftMargin for i = 0 and leftMargin + width*i + 2.5 otherwise; its own
height h is measured, and when h differs from the row height H the start y
is moved down by (H - h)/2 - 1; the text is centered in textWidth. -/
def cellTextOp (m : String → ℚ) (width textWidth H valueFromTop : ℚ)
    (i : ℕ) (s : String) : DrawOp :=
  let x := if i = 0 then leftMargin else leftMargin + width * (i : ℚ) + 2.5
  let h := m s
  let y := if h ≠ H then valueFromTop + (H - h) / 2 - 1 else valueFromTop
  DrawOp.text s x y textWidth "center"

/-- The cell-drawing loop, indexed from i. -/
def cellOpsAux (m : String → ℚ) (width textWidth H valueFromTop : ℚ) :
    ℕ → List String → List DrawOp
  | _, [] => []
  | i, s :: rest =>
    cellTextOp m width textWidth H valueFromTop i s
      :: cellOpsAux m width textWidth H valueFromTop (i + 1) rest

/-- The cell-drawing loop of the information-line primitives, from i = 0. -/
def cellOps (m : String → ℚ) (width textWidth H valueFromTop : ℚ)
    (text : List String) : List DrawOp :=
  cellOpsAux m width textWidth H valueFromTop 0 text

/-- drawVerticalLine: moveTo(x, y).lineTo(x, y + height). -/
def drawVerticalLine (height x y : ℚ) : DrawOp :=
  DrawOp.line x y x (y + height)

/-- The separator loop of the information-line primitives: for every column
index i except 0, a vertical line at x = leftMargin + width*i of height
endingPoint - beginningPoint starting at beginningPoint. -/
def separatorOps (width beginningPoint endingPoint : ℚ) (n : ℕ) : List DrawOp :=
  ((List.range n).filter (fun i => i ≠ 0)).map
    (fun (i : ℕ) => drawVerticalLine (endingPoint - beginningPoint)
      (leftMargin + width * (i : ℚ)) beginningPoint)

/-- drawLine: a horizontal rule from leftMargin to pageWidth - rightMargin. -/
def drawLineOp (g : PageGeom) (y : ℚ) : DrawOp :=
  DrawOp.line leftMargin y (g.width - rightMargin) y

/-- Result of one information-line call: the emitted operations and the
returned pair [endingPoint + 5, endingPoint]. -/
structure LineOut where
  ops : List DrawOp
  newY : ℚ
  endingPoint : ℚ
deriving DecidableEq, Repr

/-- generateInformationLine (part_000): computes the uniform row height
as the measured maximum floored at minCellHeight, draws each cell
vertically centered into that height, then the internal vertical
separators from beginningPoint to endingPoint, then the bottom rule at
endingPoint = valueFromTop + maxHeight + 5, and returns
[endingPoint + 5, endingPoint]. -/
def generateInformationLine (g : PageGeom) (m : String → ℚ)
    (text : List String) (valueFromTop beginningPoint : ℚ) : LineOut :=
  let width := insideWidth g / 6
  let textWidth := width - 5
  let maxH := computedRowHeight m text
  let endingPoint := valueFromTop + maxH + 5
  ⟨cellOps m width textWidth maxH valueFromTop text
     ++ separatorOps width beginningPoint endingPoint text.length
     ++ [drawLineOp g endingPoint],
   endingPoint + 5, endingPoint⟩

/-- generateInformationLineWithFixedHeight (part_000 with 6 columns;
part_002 with a columns parameter defaulting to 6): draws each cell
vertically centered into the supplied fixedHeight, then the internal
vertical separators from beginningPoint to endingPoint, then the bottom
rule at endingPoint = valueFromTop + fixedHeight + 5, and returns
[endingPoint + 5, endingPoint]. -/
def generateInformationLineWithFixedHeight (g : PageGeom) (m : String → ℚ)
    (text : List String) (valueFromTop beginningPoint : ℚ)
    (fixedHeight : ℚ) (columns : ℕ := 6) : LineOut :=
  let width := insideWidth g / (columns : ℚ)
  let textWidth := width - 5
  let endingPoint := valueFromTop + fixedHeight + 5
  ⟨cellOps m width textWidth fixedHeight valueFromTop text
     ++ separatorOps width beginningPoint endingPoint text.length
     ++ [drawLineOp g endingPoint],
   endingPoint + 5, endingPoint⟩

/-! ### generateTaxInformationTable (part_000, part_002) -/

/-- The six tax field labels. -/
def taxLabelTexts : List String :=
  ["TIN No", "VRN", "TAX OFFICE", "Z BRN No", "Z VRN", "VFD SERIAL"]

/-- The six tax field values from constants.js. -/
def taxValueTexts : List String :=
  ["100 738 031", "100 168 38A", "LARGE TAXPAYER", "Z025350886",
   "070 015 35S", "10TZ100438"]

/-- The uniform cell height of generateTaxInformationTable: the maximum of
the label-row and value-row heights, each itself the measured maximum
floored at minCellHeight (mTitle and mNormal are heightOfString at the
Title and Normal fonts). -/
def uniformCellHeight (mTitle mNormal : String → ℚ) : ℚ :=
  max (computedRowHeight mTitle taxLabelTexts)
      (computedRowHeight mNormal taxValueTexts)

/-- generateTaxInformationTable: top rule at y, first row of labels at
y + 8 with the uniform fixed height, second row of values chained on the
returned positions, returning the final y. -/
def generateTaxInformationTable (g : PageGeom) (mTitle mNormal : String → ℚ)
    (y : ℚ) : List DrawOp × ℚ :=
  let uniform := uniformCellHeight mTitle mNormal
  let r1 := generateInformationLineWithFixedHeight g mTitle taxLabelTexts (y + 8) y uniform 6
  let r2 := generateInformationLineWithFixedHeight g mNormal taxValueTexts r1.newY r1.endingPoint uniform 6
  (drawLineOp g y :: (r1.ops ++ r2.ops), r2.newY)

/-! ### ensureSpace and the report's new-page hook (part_000) -/

/-- The cursor state of the report document: current physical page and
vertical position doc.y. -/
structure DocState where
  page : ℕ
  y : ℚ
deriving DecidableEq, Repr

/-- drawPageBorder (summary-report pdfLayoutUtils): a stroked rectangle on
the page margins, as invoked by exportReportToPDF's pageAdded handler. -/
def drawPageBorderOp (g : PageGeom) (page : ℕ) : POp :=
  (page, DrawOp.rect leftMargin g.marginTop
    (g.width - leftMargin - rightMargin) (g.height - g.marginTop - g.marginBottom))

/-- Result of one ensureSpace call: the document state afterwards, whether
a new physical page was emitted, and the operations drawn by the
caller-registered pageAdded hook. -/
structure EnsureOut where
  doc : DocState
  broke : Bool
  hookOps : List POp
deriving DecidableEq, Repr

/-- ensureSpace (part_000): if doc.y + neededHeight exceeds the bottom
boundary and doc.y > margins.top + 1, doc.addPage() is called; the
pageAdded handler registered by exportReportToPDF then redraws the page
border and resets doc.y to the top margin.  Otherwise nothing happens. -/
def ensureSpace (g : PageGeom) (d : DocState) (neededHeight : ℚ) : EnsureOut :=
  let bottom := g.height - g.marginBottom
  if d.y + neededHeight > bottom then
    if d.y > g.marginTop + 1 then
      ⟨⟨d.page + 1, g.marginTop⟩, true, [drawPageBorderOp g (d.page + 1)]⟩
    else ⟨d, false, []⟩
  else ⟨d, false, []⟩

/-! ### Output-sink behaviour of the two document generators (part_000)

generateNewReceipt buffers every PDF chunk in memory, and only when the
stream ends performs one fs.writeFileSync of the concatenated buffer
inside a try/catch whose catch rejects the returned promise; a stream
error event also rejects.  exportReportToPDF instead pipes the document
straight into fs.createWriteStream(filePath), registers no error handler
on the stream, and returns undefined rather than a promise.  We model a
chunk as a list of bytes, and the file-write calls at the granularity the
code performs them: generateNewReceipt performs a single write call of
the full buffer (modelled atomic: either it succeeds wholly or throws
before writing), while the pipe of exportReportToPDF flushes the chunks
one write call at a time. -/

/-- How the sink behaves during one generation: the stream ends and the
final write succeeds, the final write throws, or the document stream
emits an error event. -/
inductive SinkEvent where
  | ok
  | writeFail
  | docError
deriving DecidableEq, Repr

/-- What the caller of a generator observes: a resolved promise, a
rejected promise, or no signal at all (the function returns undefined
with no error surfaced). -/
inductive GenResult where
  | resolved
  | rejected
  | noSignal
deriving DecidableEq, Repr

/-- generateNewReceipt's sink behaviour: on success the single buffered
write puts the full concatenation on disk and the promise resolves; if
the write throws, or the document errors, the promise rejects and no
write call has put content on disk. -/
def generateNewReceiptSink (chunks : List (List ℕ)) :
    SinkEvent → GenResult × List ℕ
  | .ok => (.resolved, chunks.flatten)
  | .writeFail => (.rejected, [])
  | .docError => (.rejected, [])

/-- exportReportToPDF's sink behaviour: the pipe flushes chunks to disk
one at a time; failAfter = some k means the stream fails after k chunk
writes, leaving them on disk.  In every case the function body just
returns (no promise, no error handler), so the caller gets no signal. -/
def exportReportToPDFSink (chunks : List (List ℕ)) (failAfter : Option ℕ) :
    GenResult × List ℕ :=
  match failAfter with
  | none => (.noSignal, chunks.flatten)
  | some k => (.noSignal, (chunks.take k).flatten)

/-! ### Concrete instances used by witnesses and counterexamples -/

/-- The report document geometry: A4 pages with margins
top = leftMargin = 20 and bottom = 40, as configured in exportReportToPDF. -/
def reportGeom : PageGeom := ⟨595.28, 841.89, 20, 40⟩

/-- A small page geometry (usable area 40 units tall) used to exercise
page breaks on tiny tables. -/
def tinyGeom : PageGeom := ⟨300, 100, 20, 40⟩

/-- A concrete text measure: the empty string measures 0, anything else
measures one 11-unit line (a plausible single-line height at font size 9,
below the 14-unit minimum cell height — as presupposed by the spec's own
scenario A). -/
def oneLineMeasure : String → ℚ := fun s => if s = "" then 0 else 11

/-! ### Helper lemmas -/

/-- The running maximum in generateInformationLine's reduce never exceeds a
bound that dominates the accumulator and every measured cell. -/
lemma foldl_max_le (m : String → ℚ) (c : ℚ) :
    ∀ (text : List String) (acc : ℚ), acc ≤ c → (∀ s ∈ text, m s ≤ c) →
      text.foldl (fun mx s => if m s > mx then m s else mx) acc ≤ c := by
  intro text
  induction text with
  | nil => intro acc h _; simpa using h
  | cons s rest ih =>
    intro acc hacc hall
    simp only [List.foldl_cons]
    apply ih
    · by_cases hgt : m s > acc
      · simpa [hgt] using hall s (by simp)
      · simpa [hgt] using hacc
    · intro t ht; exact hall t (by simp [ht])

/-- Bound on the measured maximum of a row. -/
lemma maxTextHeight_le (m : String → ℚ) (c : ℚ) (text : List String)
    (hc : 0 ≤ c) (hall : ∀ s ∈ text, m s ≤ c) : maxTextHeight m text ≤ c :=
  foldl_max_le m c text 0 hc hall

/-- Unfolding one data-row iteration of drawWideLeftTable's loop: the head
placement is exactly the wltEntry page-break step, and the loop continues
from that placement advanced by the fixed row height. -/
lemma wltLoop_rowPos (g : PageGeom) (lh rh l v : String)
    (rest : List (String × String)) (page : ℕ) (y : ℚ) :
    (wltLoop g lh rh ((l, v) :: rest) page y).rowPos =
      wltEntry g page y ::
        (wltLoop g lh rh rest (wltEntry g page y).1
          ((wltEntry g page y).2 + wltRowHeight)).rowPos := by
  by_cases h : y + wltRowHeight + 10 > pageBottom g <;> simp [wltLoop, wltEntry, h]

/-- The loop renders a placement for every data row. -/
lemma wltLoop_rowPos_length (g : PageGeom) (lh rh : String) :
    ∀ (rows : List (String × String)) (page : ℕ) (y : ℚ),
      (wltLoop g lh rh rows page y).rowPos.length = rows.length := by
  intro rows
  induction rows with
  | nil => intro page y; simp [wltLoop]
  | cons r rest ih =>
    intro page y
    obtain ⟨l, v⟩ := r
    rw [wltLoop_rowPos]
    simp [ih]

/-- The first placement of a nonempty data-row list. -/
lemma wltLoop_headPos (g : PageGeom) (lh rh : String)
    (rows : List (String × String)) (page : ℕ) (y : ℚ) (h : rows ≠ []) :
    (wltLoop g lh rh rows page y).rowPos.head? = some (wltEntry g page y) := by
  obtain ⟨r, rest, rfl⟩ := List.exists_cons_of_ne_nil h
  obtain ⟨l, v⟩ := r
  rw [wltLoop_rowPos]
  rfl

/-- Consecutive data-row placements of the loop are linked by the wltEntry
page-break step applied to the previous row's ending position. -/
lemma wltLoop_chain (g : PageGeom) (lh rh : String) :
    ∀ (rows : List (String × String)) (page : ℕ) (y : ℚ),
      List.Chain' (fun p1 p2 => p2 = wltEntry g p1.1 (p1.2 + wltRowHeight))
        (wltLoop g lh rh rows page y).rowPos := by
  intro rows
  induction rows with
  | nil => intro page y; simp [wltLoop]
  | cons r rest ih =>
    intro page y
    obtain ⟨l, v⟩ := r
    rw [wltLoop_rowPos, List.chain'_cons']
    refine ⟨?_, ih _ _⟩
    intro z hz
    cases rest with
    | nil => simp [wltLoop] at hz
    | cons r2 rest2 =>
      rw [wltLoop_headPos g lh rh _ _ _ (by simp)] at hz
      simpa using hz.symm

/-- Each rendered data row contributes its two bordered cells to the
emitted operations, at the row's recorded page and top position. -/
lemma wltLoop_rect_mem (g : PageGeom) (lh rh : String) :
    ∀ (rows : List (String × String)) (page : ℕ) (y : ℚ),
      ∀ pr ∈ (wltLoop g lh rh rows page y).rowPos,
        (pr.1, DrawOp.rect leftMargin pr.2 (col1Width g) wltRowHeight)
            ∈ (wltLoop g lh rh rows page y).ops ∧
        (pr.1, DrawOp.rect (leftMargin + col1Width g) pr.2 (col2Width g) wltRowHeight)
            ∈ (wltLoop g lh rh rows page y).ops := by
  intro rows
  induction rows with
  | nil => intro page y pr hpr; simp [wltLoop] at hpr
  | cons r rest ih =>
    intro page y pr hpr
    obtain ⟨l, v⟩ := r
    by_cases h : y + wltRowHeight + 10 > pageBottom g
    · simp only [wltLoop, if_pos h, List.mem_cons] at hpr
      rcases hpr with hpr | hpr
      · subst hpr
        constructor <;> simp [wltLoop, if_pos h, wltRowOps, drawHeader]
      · obtain ⟨h1, h2⟩ := ih _ _ pr hpr
        constructor <;> simp [wltLoop, if_pos h, h1, h2]
    · simp only [wltLoop, if_neg h, List.mem_cons] at hpr
      rcases hpr with hpr | hpr
      · subst hpr
        constructor <;> simp [wltLoop, if_neg h, wltRowOps]
      · obtain ⟨h1, h2⟩ := ih _ _ pr hpr
        constructor <;> simp [wltLoop, if_neg h, h1, h2]

/-- Shape of one loop iteration when the page-break check fires. -/
lemma wltLoop_ops_break (g : PageGeom) (lh rh l v : String)
    (rest : List (String × String)) (page : ℕ) (y : ℚ)
    (h : y + wltRowHeight + 10 > pageBottom g) :
    wltLoop g lh rh ((l, v) :: rest) page y =
      ⟨drawHeader g lh rh (page + 1) g.marginTop
         ++ wltRowOps g l v (page + 1) (g.marginTop + wltHeaderHeight)
         ++ (wltLoop g lh rh rest (page + 1)
              (g.marginTop + wltHeaderHeight + wltRowHeight)).ops,
       (page + 1, g.marginTop + wltHeaderHeight)
         :: (wltLoop g lh rh rest (page + 1)
              (g.marginTop + wltHeaderHeight + wltRowHeight)).rowPos,
       (wltLoop g lh rh rest (page + 1)
          (g.marginTop + wltHeaderHeight + wltRowHeight)).page,
       (wltLoop g lh rh rest (page + 1)
          (g.marginTop + wltHeaderHeight + wltRowHeight)).y⟩ := by
  simp [wltLoop, if_pos h, List.append_assoc]

/-- Shape of one loop iteration when the row fits on the current page. -/
lemma wltLoop_ops_cont (g : PageGeom) (lh rh l v : String)
    (rest : List (String × String)) (page : ℕ) (y : ℚ)
    (h : ¬ y + wltRowHeight + 10 > pageBottom g) :
    wltLoop g lh rh ((l, v) :: rest) page y =
      ⟨wltRowOps g l v page y
         ++ (wltLoop g lh rh rest page (y + wltRowHeight)).ops,
       (page, y) :: (wltLoop g lh rh rest page (y + wltRowHeight)).rowPos,
       (wltLoop g lh rh rest page (y + wltRowHeight)).page,
       (wltLoop g lh rh rest page (y + wltRowHeight)).y⟩ := by
  simp [wltLoop, if_neg h]

/-- Whenever a data row of the loop lands on a page other than the one the
loop entered on (for the head row) or the previous row's page (for later
rows), that row starts at the top margin plus the header height, and the
emitted operations contain a full header redraw at the top margin of that
page immediately followed by the row's own operations. -/
lemma wltLoop_header_repeat (g : PageGeom) (lh rh : String) :
    ∀ (rows : List (String × String)) (page : ℕ) (y : ℚ),
      (∀ z ∈ (rows.zip (wltLoop g lh rh rows page y).rowPos).head?,
          z.2.1 ≠ page → z.2.2 = g.marginTop + wltHeaderHeight ∧
            (drawHeader g lh rh z.2.1 g.marginTop
              ++ wltRowOps g z.1.1 z.1.2 z.2.1 z.2.2)
              <:+: (wltLoop g lh rh rows page y).ops)
      ∧ List.Chain'
          (fun a b => a.2.1 ≠ b.2.1 → b.2.2 = g.marginTop + wltHeaderHeight ∧
            (drawHeader g lh rh b.2.1 g.marginTop
              ++ wltRowOps g b.1.1 b.1.2 b.2.1 b.2.2)
              <:+: (wltLoop g lh rh rows page y).ops)
          (rows.zip (wltLoop g lh rh rows page y).rowPos) := by
  intro rows
  induction rows with
  | nil => intro page y; simp [wltLoop]
  | cons r rest ih =>
    intro page y
    obtain ⟨l, v⟩ := r
    by_cases h : y + wltRowHeight + 10 > pageBottom g
    · rw [wltLoop_ops_break g lh rh l v rest page y h]
      have hlift : (wltLoop g lh rh rest (page + 1)
            (g.marginTop + wltHeaderHeight + wltRowHeight)).ops
          <:+: (drawHeader g lh rh (page + 1) g.marginTop
            ++ wltRowOps g l v (page + 1) (g.marginTop + wltHeaderHeight)
            ++ (wltLoop g lh rh rest (page + 1)
                 (g.marginTop + wltHeaderHeight + wltRowHeight)).ops) :=
        ⟨drawHeader g lh rh (page + 1) g.marginTop
           ++ wltRowOps g l v (page + 1) (g.marginTop + wltHeaderHeight),
         [], by simp [List.append_assoc]⟩
      constructor
      · intro z hz hne
        simp only [List.zip_cons_cons, List.head?_cons, Option.mem_some_iff] at hz
        subst hz
        refine ⟨rfl, ⟨[], (wltLoop g lh rh rest (page + 1)
            (g.marginTop + wltHeaderHeight + wltRowHeight)).ops, by
          simp [List.append_assoc]⟩⟩
      · simp only [List.zip_cons_cons]
        rw [List.chain'_cons']
        constructor
        · intro z2 hz2 hne
          have := (ih (page + 1) (g.marginTop + wltHeaderHeight + wltRowHeight)).1 z2 hz2 hne.symm
          exact ⟨this.1, this.2.trans hlift⟩
        · exact ((ih (page + 1) (g.marginTop + wltHeaderHeight + wltRowHeight)).2).imp
            (fun a b hab hne => ⟨(hab hne).1, (hab hne).2.trans hlift⟩)
    · rw [wltLoop_ops_cont g lh rh l v rest page y h]
      have hlift : (wltLoop g lh rh rest page (y + wltRowHeight)).ops
          <:+: (wltRowOps g l v page y
            ++ (wltLoop g lh rh rest page (y + wltRowHeight)).ops) :=
        ⟨wltRowOps g l v page y, [], by simp⟩
      constructor
      · intro z hz hne
        simp only [List.zip_cons_cons, List.head?_cons, Option.mem_some_iff] at hz
        subst hz
        exact absurd rfl hne
      · simp only [List.zip_cons_cons]
        rw [List.chain'_cons']
        constructor
        · intro z2 hz2 hne
          have := (ih page (y + wltRowHeight)).1 z2 hz2 hne.symm
          exact ⟨this.1, this.2.trans hlift⟩
        · exact ((ih page (y + wltRowHeight)).2).imp
            (fun a b hab hne => ⟨(hab hne).1, (hab hne).2.trans hlift⟩)

/-- The number of internal separator indices: every column index except 0. -/
lemma filter_range_ne_zero_length (n : ℕ) :
    ((List.range n).filter (fun i => i ≠ 0)).length = n - 1 := by
  induction n with
  | zero => rfl
  | succ k ih =>
    rw [List.range_succ, List.filter_append, List.length_append, ih]
    by_cases hk : k = 0
    · subst hk; simp
    · simp only [List.filter_cons, List.filter_nil]
      rw [if_pos (by simpa using hk)]
      simp
      omega

/-- The cell-drawing loop emits, for the cell at index i, exactly the
indexed cell operation. -/
lemma cellOpsAux_mem (m : String → ℚ) (width textWidth H valueFromTop : ℚ) :
    ∀ (text : List String) (i0 i : ℕ) (h : i < text.length),
      cellTextOp m width textWidth H valueFromTop (i0 + i) (text.get ⟨i, h⟩)
        ∈ cellOpsAux m width textWidth H valueFromTop i0 text := by
  intro text
  induction text with
  | nil => intro i0 i h; simp at h
  | cons s rest ih =>
    intro i0 i h
    cases i with
    | zero => simp [cellOpsAux]
    | succ j =>
      have hj : j < rest.length := by simpa using h
      have hmem := ih (i0 + 1) j hj
      simp only [cellOpsAux, List.mem_cons]
      right
      have harith : i0 + (j + 1) = i0 + 1 + j := by omega
      rw [harith]
      simpa using hmem

/-! ### Claim theorems -/

/-- C1: No-overlap — in drawWideLeftTable's sequential pass, consecutive
data rows never overlap: the next row is on a strictly later page or its
top is at least the previous row's ending position (top + rowHeight); and
for generateInformationLine rows chained via the returned y, the next
row's top (the returned new y) is never above the previous row's ending
point. -/
theorem c1_no_overlap (g : PageGeom) (lh rh : String)
    (rows : List (String × String)) (startY : ℚ) (m : String → ℚ)
    (text : List String) (valueFromTop beginningPoint : ℚ) :
    List.Chain' (fun p1 p2 => p1.1 < p2.1 ∨ (p1.1 = p2.1 ∧ p1.2 + wltRowHeight ≤ p2.2))
      (drawWideLeftTable g rows lh rh startY).rowPos
    ∧ (generateInformationLine g m text valueFromTop beginningPoint).endingPoint
        ≤ (generateInformationLine g m text valueFromTop beginningPoint).newY := by
  constructor
  · have hc := wltLoop_chain g lh rh rows 0 (startY + wltHeaderHeight)
    refine List.Chain'.imp ?_ hc
    intro p1 p2 hstep
    rw [hstep]
    unfold wltEntry
    by_cases h : p1.2 + wltRowHeight + wltRowHeight + 10 > pageBottom g
    · rw [if_pos h]
      exact Or.inl (Nat.lt_succ_self _)
    · rw [if_neg h]
      exact Or.inr ⟨rfl, le_refl _⟩
  · simp [generateInformationLine]

/-- Witness for C1 at a concrete two-row table on a tiny page. -/
theorem c1_no_overlap_witness :
    List.Chain' (fun p1 p2 => p1.1 < p2.1 ∨ (p1.1 = p2.1 ∧ p1.2 + wltRowHeight ≤ p2.2))
      (drawWideLeftTable tinyGeom [("a", "1"), ("b", "2")] "L" "R" 20).rowPos :=
  (c1_no_overlap tinyGeom "L" "R" [("a", "1"), ("b", "2")] 20 oneLineMeasure [] 0 0).1

/-- C2 (amended): ensureSpace emits a new physical page — resetting the
cursor to the top margin and invoking the pageAdded redraw hook — if and
only if the cursor plus the requested height exceeds the page bottom AND
the cursor is strictly more than one unit below the top margin (not, as
claimed, merely different from the top margin); otherwise the state is
returned unchanged and no hook runs. -/
theorem c2_ensureSpace_contract (g : PageGeom) (d : DocState) (neededHeight : ℚ) :
    ((ensureSpace g d neededHeight).broke = true ↔
        d.y + neededHeight > pageBottom g ∧ d.y > g.marginTop + 1)
    ∧ ((ensureSpace g d neededHeight).broke = true →
        (ensureSpace g d neededHeight).doc = ⟨d.page + 1, g.marginTop⟩
        ∧ (ensureSpace g d neededHeight).hookOps = [drawPageBorderOp g (d.page + 1)])
    ∧ ((ensureSpace g d neededHeight).broke = false →
        (ensureSpace g d neededHeight).doc = d
        ∧ (ensureSpace g d neededHeight).hookOps = []) := by
  have hb : pageBottom g = g.height - g.marginBottom := rfl
  by_cases hroom : d.y + neededHeight > g.height - g.marginBottom
  · by_cases htop : d.y > g.marginTop + 1
    · simp [ensureSpace, hroom, htop, hb]
    · simp [ensureSpace, hroom, htop, hb]
  · simp [ensureSpace, hroom, hb]

/-- Witness for C2 (amended) at a concrete breaking input. -/
theorem c2_ensureSpace_contract_witness :
    (ensureSpace reportGeom ⟨0, 100⟩ 800).doc = ⟨1, reportGeom.marginTop⟩ := by
  have h := (c2_ensureSpace_contract reportGeom ⟨0, 100⟩ 800).2.1
  exact (h (by norm_num [ensureSpace, reportGeom])).1

/-- C2 counterexample: at cursor y = 21 = topMargin + 1 the cursor is not
at the top margin and the requested height does not fit, yet ensureSpace
emits no page and returns the cursor unchanged — refuting the claimed
"iff ... the cursor is not already at the top margin". -/
theorem c2_ensureSpace_counterexample :
    ((21 : ℚ) + 800 > pageBottom reportGeom)
    ∧ (21 : ℚ) ≠ reportGeom.marginTop
    ∧ (ensureSpace reportGeom ⟨0, 21⟩ 800).broke = false
    ∧ (ensureSpace reportGeom ⟨0, 21⟩ 800).doc = ⟨0, 21⟩ := by
  refine ⟨by norm_num [pageBottom, reportGeom], by norm_num [reportGeom], ?_, ?_⟩ <;>
    norm_num [ensureSpace, reportGeom]

/-- C3: Header repetition — whenever a data row of drawWideLeftTable lands
on a different page than the previous row (or, for the first data row,
than the starting page 0), that row starts just below the header at the
top margin, and the operation stream contains a full header redraw at the
top margin of the new page immediately followed by that data row's own
operations. -/
theorem c3_header_repetition (g : PageGeom) (lh rh : String)
    (rows : List (String × String)) (startY : ℚ) :
    (∀ z ∈ (rows.zip (drawWideLeftTable g rows lh rh startY).rowPos).head?,
        z.2.1 ≠ 0 → z.2.2 = g.marginTop + wltHeaderHeight ∧
          (drawHeader g lh rh z.2.1 g.marginTop
            ++ wltRowOps g z.1.1 z.1.2 z.2.1 z.2.2)
            <:+: (drawWideLeftTable g rows lh rh startY).ops)
    ∧ List.Chain'
        (fun a b => a.2.1 ≠ b.2.1 → b.2.2 = g.marginTop + wltHeaderHeight ∧
          (drawHeader g lh rh b.2.1 g.marginTop
            ++ wltRowOps g b.1.1 b.1.2 b.2.1 b.2.2)
            <:+: (drawWideLeftTable g rows lh rh startY).ops)
        (rows.zip (drawWideLeftTable g rows lh rh startY).rowPos) := by
  have h := wltLoop_header_repeat g lh rh rows 0 (startY + wltHeaderHeight)
  have hsub : (wltLoop g lh rh rows 0 (startY + wltHeaderHeight)).ops
      <:+: (drawWideLeftTable g rows lh rh startY).ops := by
    refine ⟨drawHeader g lh rh 0 startY,
      [((wltLoop g lh rh rows 0 (startY + wltHeaderHeight)).page,
        DrawOp.line leftMargin (wltLoop g lh rh rows 0 (startY + wltHeaderHeight)).y
          (leftMargin + tableWidth g) (wltLoop g lh rh rows 0 (startY + wltHeaderHeight)).y)], ?_⟩
    simp [drawWideLeftTable, List.append_assoc]
  constructor
  · intro z hz hne
    exact ⟨(h.1 z hz hne).1, (h.1 z hz hne).2.trans hsub⟩
  · exact (h.2).imp (fun a b hab hne => ⟨(hab hne).1, (hab hne).2.trans hsub⟩)

/-- Witness for C3: on a tiny page whose first data row already breaks,
the header block followed by the row block is an infix of the emitted
operations of the continuation page. -/
theorem c3_header_repetition_witness :
    (drawHeader tinyGeom "L" "R" 1 tinyGeom.marginTop
      ++ wltRowOps tinyGeom "a" "b" 1 40)
      <:+: (drawWideLeftTable tinyGeom [("a", "b")] "L" "R" 20).ops := by
  have h := (c3_header_repetition tinyGeom "L" "R" [("a", "b")] 20).1
  have hpos : (drawWideLeftTable tinyGeom [("a", "b")] "L" "R" 20).rowPos
      = [((1 : ℕ), (40 : ℚ))] := by
    norm_num [drawWideLeftTable, wltLoop, tinyGeom, pageBottom, wltRowHeight, wltHeaderHeight]
  have hz : ((("a", "b"), ((1 : ℕ), (40 : ℚ))))
      ∈ ([("a", "b")].zip (drawWideLeftTable tinyGeom [("a", "b")] "L" "R" 20).rowPos).head? := by
    rw [hpos]
    simp
  have hr := h (("a", "b"), ((1 : ℕ), (40 : ℚ))) hz (by decide)
  exact hr.2

/-- C4 (amended): the computed uniform row height of the information-line
primitive equals max(minCellHeight, max of the measured cell heights), so
it is always at least minCellHeight = 14; it equals minCellHeight whenever
every cell measures at most minCellHeight — in particular when every cell
text is empty (empty text measuring 0) — and the tax table's uniform cell
height is likewise at least minCellHeight. -/
theorem c4_row_height (g : PageGeom) (m mTitle mNormal : String → ℚ)
    (text : List String) (valueFromTop beginningPoint : ℚ) :
    (generateInformationLine g m text valueFromTop beginningPoint).endingPoint
      = valueFromTop + computedRowHeight m text + 5
    ∧ computedRowHeight m text = max minCellHeight (maxTextHeight m text)
    ∧ minCellHeight ≤ computedRowHeight m text
    ∧ ((∀ s ∈ text, m s ≤ minCellHeight) → computedRowHeight m text = minCellHeight)
    ∧ (m "" = 0 → (∀ s ∈ text, s = "") → computedRowHeight m text = minCellHeight)
    ∧ minCellHeight ≤ uniformCellHeight mTitle mNormal := by
  refine ⟨rfl, max_comm _ _, le_max_right _ _, ?_, ?_, ?_⟩
  · intro hall
    have hle : maxTextHeight m text ≤ minCellHeight :=
      maxTextHeight_le m minCellHeight text (by norm_num [minCellHeight]) hall
    exact max_eq_right hle
  · intro h0 hempty
    have hall : ∀ s ∈ text, m s ≤ minCellHeight := by
      intro s hs
      rw [hempty s hs, h0]
      norm_num [minCellHeight]
    have hle : maxTextHeight m text ≤ minCellHeight :=
      maxTextHeight_le m minCellHeight text (by norm_num [minCellHeight]) hall
    exact max_eq_right hle
  · exact le_trans (le_max_right _ _) (le_max_left _ _)

/-- Witness for C4 (amended): a row of one empty cell gets exactly the
minimum cell height. -/
theorem c4_row_height_witness :
    computedRowHeight oneLineMeasure [""] = minCellHeight := by
  have h := (c4_row_height reportGeom oneLineMeasure oneLineMeasure oneLineMeasure
    [""] 0 0).2.2.2.1
  exact h (by intro s hs; simp at hs; subst hs; norm_num [oneLineMeasure, minCellHeight])

/-- C4 counterexample: the row height equals minCellHeight also for a row
whose single cell text "TIN No" is not empty (its one-line measured height
11 lies below the 14-unit minimum) — refuting "equals minCellHeight
exactly when every cell's text is empty". -/
theorem c4_row_height_counterexample :
    computedRowHeight oneLineMeasure ["TIN No"] = minCellHeight
    ∧ ("TIN No" : String) ≠ ""
    ∧ (generateInformationLine reportGeom oneLineMeasure ["TIN No"] 0 0).endingPoint = 19 := by
  have hA : oneLineMeasure "TIN No" = 11 := rfl
  have hmax : maxTextHeight oneLineMeasure ["TIN No"] = 11 := by
    norm_num [maxTextHeight, hA]
  have hcrh : computedRowHeight oneLineMeasure ["TIN No"] = minCellHeight := by
    rw [computedRowHeight, hmax, minCellHeight]
    exact max_eq_right (by norm_num)
  refine ⟨hcrh, by decide, ?_⟩
  show 0 + computedRowHeight oneLineMeasure ["TIN No"] + 5 = 19
  rw [hcrh, minCellHeight]
  norm_num

/-- C5 (amended): in the fixed-height row primitive, a cell whose measured
height h is below the row's fixed height is drawn at vertical offset
(fixedHeight - h)/2 - 1 — one unit higher than the claimed symmetric
offset, with no clamping — so the gap below the text exceeds the gap
above it by exactly 2 layout units. -/
theorem c5_centering (g : PageGeom) (m : String → ℚ) (text : List String)
    (valueFromTop beginningPoint fixedHeight : ℚ) (columns i : ℕ)
    (hi : i < text.length) (hlt : m (text.get ⟨i, hi⟩) < fixedHeight) :
    DrawOp.text (text.get ⟨i, hi⟩)
        (if i = 0 then leftMargin
         else leftMargin + (insideWidth g / (columns : ℚ)) * (i : ℚ) + 2.5)
        (valueFromTop + (fixedHeight - m (text.get ⟨i, hi⟩)) / 2 - 1)
        (insideWidth g / (columns : ℚ) - 5) "center"
      ∈ (generateInformationLineWithFixedHeight g m text valueFromTop beginningPoint
          fixedHeight columns).ops
    ∧ ((valueFromTop + fixedHeight)
        - ((valueFromTop + (fixedHeight - m (text.get ⟨i, hi⟩)) / 2 - 1)
            + m (text.get ⟨i, hi⟩)))
      - ((valueFromTop + (fixedHeight - m (text.get ⟨i, hi⟩)) / 2 - 1) - valueFromTop)
      = 2 := by
  constructor
  · have hmem := cellOpsAux_mem m (insideWidth g / (columns : ℚ))
      (insideWidth g / (columns : ℚ) - 5) fixedHeight valueFromTop text 0 i hi
    rw [Nat.zero_add] at hmem
    have hop : cellTextOp m (insideWidth g / (columns : ℚ))
        (insideWidth g / (columns : ℚ) - 5) fixedHeight valueFromTop i (text.get ⟨i, hi⟩)
        = DrawOp.text (text.get ⟨i, hi⟩)
            (if i = 0 then leftMargin
             else leftMargin + (insideWidth g / (columns : ℚ)) * (i : ℚ) + 2.5)
            (valueFromTop + (fixedHeight - m (text.get ⟨i, hi⟩)) / 2 - 1)
            (insideWidth g / (columns : ℚ) - 5) "center" := by
      simp only [cellTextOp]
      rw [if_pos hlt.ne]
    rw [hop] at hmem
    simp only [generateInformationLineWithFixedHeight]
    exact List.mem_append_left _ (List.mem_append_left _ hmem)
  · ring

/-- Witness for C5 (amended) at a concrete cell measuring 11 in a
14-unit-high row. -/
theorem c5_centering_witness :
    DrawOp.text "A" leftMargin (100 + (14 - oneLineMeasure "A") / 2 - 1)
        (insideWidth reportGeom / 6 - 5) "center"
      ∈ (generateInformationLineWithFixedHeight reportGeom oneLineMeasure
          ["A"] 100 95 14 6).ops := by
  have hp : 0 < (["A"] : List String).length := by norm_num
  have hlt : oneLineMeasure ((["A"] : List String).get ⟨0, hp⟩) < 14 := by
    have h11 : oneLineMeasure ((["A"] : List String).get ⟨0, hp⟩) = 11 := rfl
    rw [h11]
    norm_num
  have h := (c5_centering reportGeom oneLineMeasure ["A"] 100 95 14 6 0 hp hlt).1
  simpa using h

/-- C5 counterexample: a cell of measured height 11 in a fixed 14-unit row
is drawn at y = 100.5, not at the claimed clamped symmetric offset
100 + (14-11)/2 = 101.5, and the top and bottom gaps differ by 2 > 1. -/
theorem c5_centering_counterexample :
    (generateInformationLineWithFixedHeight reportGeom oneLineMeasure
        ["A"] 100 95 14 6).ops.head?
      = some (DrawOp.text "A" 20 100.5 (insideWidth reportGeom / 6 - 5) "center")
    ∧ (100.5 : ℚ) ≠ 100 + (14 - oneLineMeasure "A") / 2
    ∧ ¬ |((100 + 14) - ((100.5 : ℚ) + oneLineMeasure "A")) - (100.5 - 100)| ≤ 1 := by
  have hA : oneLineMeasure "A" = 11 := rfl
  refine ⟨?_, ?_, ?_⟩
  · have hhd : (generateInformationLineWithFixedHeight reportGeom oneLineMeasure
        ["A"] 100 95 14 6).ops.head?
        = some (cellTextOp oneLineMeasure (insideWidth reportGeom / 6)
            (insideWidth reportGeom / 6 - 5) 14 100 0 "A") := rfl
    rw [hhd]
    have hcell : cellTextOp oneLineMeasure (insideWidth reportGeom / 6)
        (insideWidth reportGeom / 6 - 5) 14 100 0 "A"
        = DrawOp.text "A" 20 100.5 (insideWidth reportGeom / 6 - 5) "center" := by
      simp only [cellTextOp, hA]
      rw [if_pos (by norm_num : (11 : ℚ) ≠ 14)]
      norm_num [leftMargin]
    rw [hcell]
  · rw [hA]
    norm_num
  · rw [hA]
    have h3 : ((100 + 14 : ℚ) - ((100.5 : ℚ) + 11)) - ((100.5 : ℚ) - 100) = 2 := by
      norm_num
    rw [h3, abs_of_pos (by norm_num : (0 : ℚ) < 2)]
    norm_num

/-- C6: the fixed-height row primitive draws its cell texts first, then
exactly N - 1 internal vertical separators (N the number of cells), each
spanning exactly from the row's beginning point to its ending point, and
finally the bottom rule — so no separator starts or ends outside the
row's content extent, and none is emitted before the extent is known. -/
theorem c6_separators (g : PageGeom) (m : String → ℚ) (text : List String)
    (valueFromTop beginningPoint fixedHeight : ℚ) (columns : ℕ) :
    (generateInformationLineWithFixedHeight g m text valueFromTop beginningPoint
        fixedHeight columns).ops
      = cellOps m (insideWidth g / (columns : ℚ)) (insideWidth g / (columns : ℚ) - 5)
          fixedHeight valueFromTop text
        ++ separatorOps (insideWidth g / (columns : ℚ)) beginningPoint
            (valueFromTop + fixedHeight + 5) text.length
        ++ [drawLineOp g (valueFromTop + fixedHeight + 5)]
    ∧ (separatorOps (insideWidth g / (columns : ℚ)) beginningPoint
        (valueFromTop + fixedHeight + 5) text.length).length = text.length - 1
    ∧ ∀ op ∈ separatorOps (insideWidth g / (columns : ℚ)) beginningPoint
        (valueFromTop + fixedHeight + 5) text.length,
        ∃ i : ℕ, i ≠ 0 ∧
          op = DrawOp.line (leftMargin + (insideWidth g / (columns : ℚ)) * (i : ℚ))
            beginningPoint (leftMargin + (insideWidth g / (columns : ℚ)) * (i : ℚ))
            (valueFromTop + fixedHeight + 5) := by
  refine ⟨rfl, ?_, ?_⟩
  · rw [separatorOps, List.length_map, filter_range_ne_zero_length]
  · intro op hop
    rw [separatorOps] at hop
    obtain ⟨i, hi, rfl⟩ := List.mem_map.mp hop
    rw [List.mem_filter] at hi
    refine ⟨i, by simpa using hi.2, ?_⟩
    simp only [drawVerticalLine]
    congr 1
    ring

/-- Witness for C6 at the spec's scenario A: six tax labels yield exactly
five internal separators. -/
theorem c6_separators_witness :
    (separatorOps (insideWidth reportGeom / 6) 0 19 taxLabelTexts.length).length = 5 := by
  have h := (c6_separators reportGeom oneLineMeasure taxLabelTexts 0 0 14 6).2.1
  simpa [taxLabelTexts] using h

/-- C7: drawWideLeftTable's geometry — the left column is
floor(0.75 * tableWidth) wide so the internal boundary sits at
tableX + floor(0.75 * tableWidth) exactly, the two columns partition the
usable width, every data row is a fixed 18-unit-high pair of bordered
cells at its recorded placement, and consecutive placements are linked by
the per-row page-break step "if y + rowHeight + 10 > pageBottom then new
page at the top margin else continue at y". -/
theorem c7_wide_left_geometry (g : PageGeom) (lh rh : String)
    (rows : List (String × String)) (startY : ℚ) :
    col1Width g = ((⌊(0.75 : ℚ) * tableWidth g⌋ : ℤ) : ℚ)
    ∧ col1Width g + col2Width g = tableWidth g
    ∧ (∀ pr ∈ (drawWideLeftTable g rows lh rh startY).rowPos,
        (pr.1, DrawOp.rect leftMargin pr.2 (col1Width g) wltRowHeight)
            ∈ (drawWideLeftTable g rows lh rh startY).ops ∧
        (pr.1, DrawOp.rect (leftMargin + col1Width g) pr.2 (col2Width g) wltRowHeight)
            ∈ (drawWideLeftTable g rows lh rh startY).ops)
    ∧ List.Chain' (fun p1 p2 => p2 = wltEntry g p1.1 (p1.2 + wltRowHeight))
        (drawWideLeftTable g rows lh rh startY).rowPos
    ∧ (rows ≠ [] → (drawWideLeftTable g rows lh rh startY).rowPos.head?
        = some (wltEntry g 0 (startY + wltHeaderHeight))) := by
  refine ⟨by rw [col1Width, mul_comm], by simp [col2Width], ?_, ?_, ?_⟩
  · intro pr hpr
    have h := wltLoop_rect_mem g lh rh rows 0 (startY + wltHeaderHeight) pr hpr
    constructor <;>
      simp [drawWideLeftTable, List.mem_append, h.1, h.2]
  · exact wltLoop_chain g lh rh rows 0 (startY + wltHeaderHeight)
  · intro hne
    exact wltLoop_headPos g lh rh rows 0 (startY + wltHeaderHeight) hne

/-- Witness for C7 at a concrete one-row table. -/
theorem c7_wide_left_geometry_witness :
    (drawWideLeftTable reportGeom [("Type A", "10")] "Type" "Count" 100).rowPos.head?
      = some (wltEntry reportGeom 0 (100 + wltHeaderHeight)) :=
  (c7_wide_left_geometry reportGeom "Type" "Count" [("Type A", "10")] 100).2.2.2.2
    (by simp)

/-- C8 (amended): when the requested height alone exceeds the usable page
height, the room check fires at every cursor position at or below the top
margin; a page break then occurs whenever the cursor is more than one unit
past the top margin (at the top margin the blank-page guard suppresses it),
and after the break the block still overflows the fresh page; the request
is never truncated or shrunk — the state is either unchanged or a fresh
page with the cursor at the top margin, and drawWideLeftTable likewise
draws every row regardless of fit. -/
theorem c8_oversized (g : PageGeom) (d : DocState) (neededHeight : ℚ)
    (lh rh : String) (rows : List (String × String)) (startY : ℚ)
    (hbig : pageBottom g - g.marginTop < neededHeight) (hy : g.marginTop ≤ d.y) :
    d.y + neededHeight > pageBottom g
    ∧ (d.y > g.marginTop + 1 →
        (ensureSpace g d neededHeight).broke = true
        ∧ (ensureSpace g d neededHeight).doc.y = g.marginTop
        ∧ g.marginTop + neededHeight > pageBottom g)
    ∧ ((ensureSpace g d neededHeight).doc = d
        ∨ (ensureSpace g d neededHeight).doc = ⟨d.page + 1, g.marginTop⟩)
    ∧ (drawWideLeftTable g rows lh rh startY).rowPos.length = rows.length := by
  have hroom : d.y + neededHeight > g.height - g.marginBottom := by
    have : pageBottom g = g.height - g.marginBottom := rfl
    rw [← this]
    unfold pageBottom at hbig
    linarith
  refine ⟨hroom, ?_, ?_, ?_⟩
  · intro htop
    have hstep : ensureSpace g d neededHeight
        = ⟨⟨d.page + 1, g.marginTop⟩, true, [drawPageBorderOp g (d.page + 1)]⟩ := by
      unfold ensureSpace
      rw [if_pos hroom, if_pos htop]
    rw [hstep]
    refine ⟨rfl, rfl, ?_⟩
    unfold pageBottom at hbig ⊢
    linarith
  · by_cases hc1 : d.y + neededHeight > g.height - g.marginBottom
    · by_cases hc2 : d.y > g.marginTop + 1
      · right
        simp [ensureSpace, hc1, hc2]
      · left
        simp [ensureSpace, hc1, hc2]
    · left
      simp [ensureSpace, hc1]
  · exact wltLoop_rowPos_length g lh rh rows 0 (startY + wltHeaderHeight)

/-- Witness for C8 (amended): an oversized request away from the top
margin breaks to a fresh page with the cursor at the top margin. -/
theorem c8_oversized_witness :
    (ensureSpace reportGeom ⟨0, 100⟩ 1000).broke = true
    ∧ (ensureSpace reportGeom ⟨0, 100⟩ 1000).doc.y = reportGeom.marginTop := by
  have h := c8_oversized reportGeom ⟨0, 100⟩ 1000 "L" "R" [] 0
    (by norm_num [pageBottom, reportGeom]) (by norm_num [reportGeom])
  have h2 := h.2.1 (by norm_num [reportGeom])
  exact ⟨h2.1, h2.2.1⟩

/-- C8 counterexample: a request taller than the whole usable page, made
with the cursor exactly at the top margin, triggers no page break at all —
refuting "the room check always triggers a page break". -/
theorem c8_oversized_counterexample :
    pageBottom reportGeom - reportGeom.marginTop < 1000
    ∧ reportGeom.marginTop + 1000 > pageBottom reportGeom
    ∧ (ensureSpace reportGeom ⟨0, 20⟩ 1000).broke = false
    ∧ (ensureSpace reportGeom ⟨0, 20⟩ 1000).doc = ⟨0, 20⟩ := by
  refine ⟨by norm_num [pageBottom, reportGeom], by norm_num [pageBottom, reportGeom],
    ?_, ?_⟩ <;> norm_num [ensureSpace, reportGeom]

/-- C9 (amended): generateNewReceipt buffers every chunk and performs one
final write, so a write or stream failure rejects the returned promise
with nothing on disk, and success writes the full concatenation; but
exportReportToPDF, which pipes incrementally into the file stream with no
error handler and no promise, never surfaces a sink failure to its
caller. -/
theorem c9_sink (chunks : List (List ℕ)) (e : SinkEvent)
    (he : e ≠ SinkEvent.ok) :
    generateNewReceiptSink chunks e = (GenResult.rejected, [])
    ∧ generateNewReceiptSink chunks SinkEvent.ok = (GenResult.resolved, chunks.flatten)
    ∧ ∀ k, (exportReportToPDFSink chunks (some k)).1 = GenResult.noSignal := by
  refine ⟨?_, rfl, fun k => rfl⟩
  cases e with
  | ok => exact absurd rfl he
  | writeFail => rfl
  | docError => rfl

/-- Witness for C9 (amended) at a concrete failing write. -/
theorem c9_sink_witness :
    generateNewReceiptSink [[1], [2]] SinkEvent.writeFail = (GenResult.rejected, []) :=
  (c9_sink [[1], [2]] SinkEvent.writeFail (by decide)).1

/-- C9 counterexample: when the report's output stream fails after one of
two chunks, the caller receives no failed result and the first chunk is
left on disk — refuting "the failure is surfaced ... and the partial
output is discarded" for exportReportToPDF. -/
theorem c9_sink_counterexample :
    (exportReportToPDFSink [[1], [2]] (some 1)).1 = GenResult.noSignal
    ∧ (exportReportToPDFSink [[1], [2]] (some 1)).2 = [1]
    ∧ ([1] : List ℕ) ≠ [] := by
  exact ⟨rfl, rfl, by simp⟩

/-- C10: drawWideLeftTable on an empty rows array still draws the two
bordered header cells and both header texts at the starting y on page 0,
performs no page break, draws the bottom border rule immediately below
the header, and returns startY + headerHeight + 4. -/
theorem c10_empty_table (g : PageGeom) (lh rh : String) (startY : ℚ) :
    drawWideLeftTable g [] lh rh startY =
      ⟨[ (0, DrawOp.rect leftMargin startY (col1Width g) wltHeaderHeight),
         (0, DrawOp.rect (leftMargin + col1Width g) startY (col2Width g) wltHeaderHeight),
         (0, DrawOp.text lh (leftMargin + 8) (startY + 5) (col1Width g - 16) "left"),
         (0, DrawOp.text rh (leftMargin + col1Width g + 8) (startY + 5) (col2Width g - 16) "right"),
         (0, DrawOp.line leftMargin (startY + wltHeaderHeight)
           (leftMargin + tableWidth g) (startY + wltHeaderHeight)) ],
       [], startY + wltHeaderHeight + 4⟩ := rfl

/-- Witness for C10 at a concrete starting position. -/
theorem c10_empty_table_witness :
    (drawWideLeftTable reportGeom [] "Type" "Count" 100).retY
      = 100 + wltHeaderHeight + 4 := by
  rw [c10_empty_table reportGeom "Type" "Count" 100]

end Reports
